import Mathlib

/-!
# Verification of the MAVSDK offboard velocity-control examples

Shallow embedding of `src/automissions/offboard_omnidirectional/
offboard_omnidirectional.cpp`, which contains two example variants
(omnidirectional and orthogonal body-frame velocity control) that share
the same structure: a `get_system` peer-discovery wait, an
`offb_ctrl_body` setpoint sequencer, and a `main` flight routine.

The embedding models the observable effects of each routine as an
explicit event trace; remote calls are given their outcomes through an
environment record.  Velocity components are exact rationals (the C++
`float` literals 0.5f, 0.25f, 22.5f are all exactly representable).
-/

namespace Offb

/-- `Offboard::VelocityBodyYawspeed`: three linear body-frame velocity
components (m/s) and a yaw rate (deg/s).  Value-initialised (`{}`) to
the zero vector, i.e. hover. -/
structure VelocityBodyYawspeed where
  forward_m_s : ℚ := 0
  right_m_s : ℚ := 0
  down_m_s : ℚ := 0
  yawspeed_deg_s : ℚ := 0
deriving DecidableEq, Repr

/-- The neutral (all-zero) command `Offboard::VelocityBodyYawspeed hover{}`. -/
def hover : VelocityBodyYawspeed := {}

/-- A sequence step: a velocity command together with its dwell duration
in whole seconds (the argument of the `sleep_for(seconds(n))` that
follows the `set_velocity_body` call). -/
abbrev SequenceStep := VelocityBodyYawspeed × Nat

/-- Observable events of the program: velocity-command sends, blocking
sleeps, and the remote calls made by `offb_ctrl_body`, `get_system` and
`main`. -/
inductive Ev where
  | sendVel (v : VelocityBodyYawspeed)
  | sleepSec (n : Nat)
  | offboardStart
  | offboardStop
  | callConnect
  | subNewSystem
  | unsubNewSystem
  | pollHealth
  | callArm
  | setTakeoffAltitude (a : ℚ)
  | setCurrentSpeed (s : ℚ)
  | callTakeoff
  | subLandedState
  | unsubLandedState
  | waitForSec (n : Nat)
  | callLand
  | pollInAir
deriving DecidableEq, Repr

/-- `true` exactly on velocity-command sends (`set_velocity_body`). -/
def isSend : Ev → Bool
  | .sendVel _ => true
  | _ => false

/-- The per-step block of `offb_ctrl_body`: for each step, one
`set_velocity_body` send followed by `sleep_for` of its dwell. -/
def stepsTrace : List SequenceStep → List Ev
  | [] => []
  | s :: rest => Ev.sendVel s.1 :: Ev.sleepSec s.2 :: stepsTrace rest

/-- `offb_ctrl_body` (both variants share this shape, differing only in
the step list): send a neutral setpoint, start offboard (abort with
`false` if it fails), hover 2 s, run the steps in order, hover 2 s,
stop offboard (return `false` if it fails), else return `true`.
`startOk`/`stopOk` are the outcomes of `offboard.start()` and
`offboard.stop()`.  Returns the boolean result and the event trace. -/
def offb_ctrl_body (steps : List SequenceStep) (startOk stopOk : Bool) :
    Bool × List Ev :=
  let pre := [Ev.sendVel hover, Ev.offboardStart]
  if startOk = false then (false, pre)
  else
    let mid := pre ++ [Ev.sendVel hover, Ev.sleepSec 2] ++ stepsTrace steps ++
      [Ev.sendVel hover, Ev.sleepSec 2, Ev.offboardStop]
    if stopOk = false then (false, mid) else (true, mid)

/-! ## The two variants' flight scripts -/

/-- Omnidirectional step 1: `fly_forward_right_up` (0.5, 0.5, -0.25). -/
def fly_forward_right_up : VelocityBodyYawspeed :=
  { forward_m_s := 1/2, right_m_s := 1/2, down_m_s := -(1/4) }

/-- Omnidirectional step 2: `fly_forward_left_down` (0.5, -0.5, 0.25). -/
def fly_forward_left_down : VelocityBodyYawspeed :=
  { forward_m_s := 1/2, right_m_s := -(1/2), down_m_s := 1/4 }

/-- Omnidirectional step 3: `fly_backward_left_up` (-0.5, -0.5, -0.25). -/
def fly_backward_left_up : VelocityBodyYawspeed :=
  { forward_m_s := -(1/2), right_m_s := -(1/2), down_m_s := -(1/4) }

/-- Omnidirectional step 4: `fly_backward_right_down` (-0.5, 0.5, 0.25). -/
def fly_backward_right_down : VelocityBodyYawspeed :=
  { forward_m_s := -(1/2), right_m_s := 1/2, down_m_s := 1/4 }

/-- Omnidirectional yaw step: `fly_quarter_cirle_up` (right 0.5,
down -0.25, yawspeed 22.5 deg/s). -/
def fly_quarter_cirle_up : VelocityBodyYawspeed :=
  { right_m_s := 1/2, down_m_s := -(1/4), yawspeed_deg_s := 45/2 }

/-- Omnidirectional yaw step: `fly_quarter_cirle_down` (right 0.5,
down 0.25, yawspeed 22.5 deg/s). -/
def fly_quarter_cirle_down : VelocityBodyYawspeed :=
  { right_m_s := 1/2, down_m_s := 1/4, yawspeed_deg_s := 45/2 }

/-- The omnidirectional variant's step list (lines 92–163): four
diagonal legs, then four quarter-circle yaw turns, each held 4 s. -/
def omniSteps : List SequenceStep :=
  [(fly_forward_right_up, 4), (fly_forward_left_down, 4),
   (fly_backward_left_up, 4), (fly_backward_right_down, 4),
   (fly_quarter_cirle_up, 4), (fly_quarter_cirle_down, 4),
   (fly_quarter_cirle_up, 4), (fly_quarter_cirle_down, 4)]

/-- The orthogonal variant's single step: `fly_forward` (forward 0.5). -/
def fly_forward : VelocityBodyYawspeed := { forward_m_s := 1/2 }

/-- The orthogonal variant's step list (lines 367–372): one forward
leg held 4 s. -/
def orthoSteps : List SequenceStep := [(fly_forward, 4)]

/-! ## Readiness-and-Transition Monitor

Both `get_system` (subscribe to new-system notifications, resolve on the
first system with an autopilot) and the takeoff-confirmation wait in
`main` (subscribe to landed-state notifications, resolve on the first
`InAir`) follow the same callback pattern: while subscribed, each
delivered value is tested against a predicate; on the first match the
callback unsubscribes (`subscribe_...(nullptr)`) and then fulfils the
promise.  After the unsubscribe no further value is delivered to the
callback. -/

/-- Monitor events: the initial subscribe, the unsubscribe issued inside
the callback on a match, and the promise fulfilment (resolution). -/
inductive MEv where
  | subscribe
  | unsubscribe
  | resolve
deriving DecidableEq, Repr

/-- Monitor state: whether the callback is still subscribed, and the
events performed so far. -/
structure MonState where
  subscribed : Bool
  trace : List MEv
deriving DecidableEq, Repr

/-- Delivery of one notification value to the monitor's callback: while
subscribed, a value satisfying the predicate causes an unsubscribe
followed by the resolution; values delivered after the unsubscribe are
dropped by the library. -/
def deliver {α : Type} (pred : α → Bool) (s : MonState) (x : α) : MonState :=
  if s.subscribed = false then s
  else if pred x then
    { subscribed := false, trace := s.trace ++ [MEv.unsubscribe, MEv.resolve] }
  else s

/-- One monitor invocation: a single subscribe, then the given sequence
of notification deliveries. -/
def monitorRun {α : Type} (pred : α → Bool) (xs : List α) : MonState :=
  xs.foldl (deliver pred) { subscribed := true, trace := [MEv.subscribe] }

/-- `Telemetry::LandedState` values, as delivered to the
`subscribe_landed_state` callback. -/
inductive LandedState where
  | onGround
  | inAir
  | takingOff
  | landing
deriving DecidableEq, Repr

/-- The takeoff-confirmation predicate: `state == LandedState::InAir`. -/
def isInAir (s : LandedState) : Bool := s = LandedState.inAir

/-- A discovered system, as seen by the `get_system` callback; only the
`has_autopilot()` capability matters there. -/
structure SystemPeer where
  has_autopilot : Bool
deriving DecidableEq, Repr

/-! ## Takeoff-confirmation wait in `main`

`main` subscribes to landed-state notifications and then performs two
successive waits on the same future: `in_air_future.wait_for(seconds(10))`
whose result is discarded, then `in_air_future.wait_for(seconds(3))`
whose result decides the timeout branch.  `arrival` is the time, in
seconds from the start of the first wait, at which an `InAir`
notification fulfils the promise (`none` if it never does). -/

/-- Whether the checked (second) `wait_for` sees the future fulfilled:
the promise must be set within the 10 s discarded wait plus the 3 s
checked wait, i.e. within 13 s. -/
def inAirResolved : Option Nat → Bool
  | none => false
  | some t => t ≤ 13

/-- Total wall-clock seconds the control thread blocks across the two
`wait_for` calls: `t` if the promise is set during the first wait, else
10 plus up to 3 more; 13 when the promise is never set. -/
def inAirElapsed : Option Nat → Nat
  | none => 13
  | some t => if t ≤ 10 then t else 10 + min (t - 10) 3

/-- The configured durations of the two `wait_for` calls, in order. -/
def inAirWaitDurations : List Nat := [10, 3]

/-! ## Top-level flight routine (`main`) -/

/-- Per-variant constants: the takeoff altitude passed to
`set_takeoff_altitude` (1.5 in the omnidirectional variant, 1.0 in the
orthogonal one) and the variant's step list. -/
structure VariantCfg where
  takeoffAlt : ℚ
  steps : List SequenceStep

/-- The omnidirectional variant's constants. -/
def omniCfg : VariantCfg := { takeoffAlt := 3/2, steps := omniSteps }

/-- The orthogonal variant's constants. -/
def orthoCfg : VariantCfg := { takeoffAlt := 1, steps := orthoSteps }

/-- Outcomes of the remote calls and notification arrivals during one
run of `main`.  `healthPolls` is the number of `health_all_ok` polls
returning false before the first true one; `landingPolls` likewise for
the `in_air` landing loop.  `inAirArrival` is the arrival time of the
first `InAir` landed-state notification. -/
structure Env where
  argc : Nat
  connOk : Bool
  peerFound : Bool
  healthPolls : Nat
  armOk : Bool
  takeoffOk : Bool
  inAirArrival : Option Nat
  startOk : Bool
  stopOk : Bool
  landOk : Bool
  landingPolls : Nat

/-- Trace of `get_system`: subscribe to new-system notifications (on
success the callback unsubscribes), then wait up to 3 s on the future. -/
def getSystemTrace (peerFound : Bool) : List Ev :=
  [Ev.subNewSystem] ++ (if peerFound then [Ev.unsubNewSystem] else []) ++
    [Ev.waitForSec 3]

/-- Trace of the `while (!telemetry.health_all_ok())` loop when the
predicate first becomes true after `n` false polls: `n` times a poll
followed by a 1 s sleep, then the final (true) poll. -/
def healthPollTrace : Nat → List Ev
  | 0 => [Ev.pollHealth]
  | n + 1 => Ev.pollHealth :: Ev.sleepSec 1 :: healthPollTrace n

/-- Trace of the `while (telemetry.in_air())` landing loop when the
predicate first becomes false after `n` true polls. -/
def landingPollTrace : Nat → List Ev
  | 0 => [Ev.pollInAir]
  | n + 1 => Ev.pollInAir :: Ev.sleepSec 1 :: landingPollTrace n

/-- The continuation of `main` after the `takeoff()` call has been
issued: check the takeoff result, subscribe and wait for the in-air
confirmation (the callback's unsubscribe happens exactly when the
notification arrives within the waits), run `offb_ctrl_body`, land,
poll until grounded, final 3 s safety sleep.  Returns the exit code and
the events performed after the takeoff call. -/
def mainRest (cfg : VariantCfg) (env : Env) : Nat × List Ev :=
  if env.takeoffOk = false then (1, [])
  else
    let r := inAirResolved env.inAirArrival
    let w := [Ev.subLandedState] ++
      (if r then [Ev.unsubLandedState] else []) ++
      [Ev.waitForSec 10, Ev.waitForSec 3]
    if r = false then (1, w)
    else
      let ob := offb_ctrl_body cfg.steps env.startOk env.stopOk
      if ob.1 = false then (1, w ++ ob.2)
      else
        if env.landOk = false then (1, w ++ ob.2 ++ [Ev.callLand])
        else (0, w ++ ob.2 ++ [Ev.callLand] ++
          landingPollTrace env.landingPolls ++ [Ev.sleepSec 3])

/-- `main` of either variant: argument check, connect, discover peer,
poll health, arm, configure takeoff altitude and ascent speed, take
off, then continue with `mainRest`.  Every failure returns exit code 1
immediately; full completion returns 0.  Returns the exit code and the
event trace. -/
def mainRun (cfg : VariantCfg) (env : Env) : Nat × List Ev :=
  if env.argc ≠ 2 then (1, [])
  else
    let t1 := [Ev.callConnect]
    if env.connOk = false then (1, t1)
    else
      let t2 := t1 ++ getSystemTrace env.peerFound
      if env.peerFound = false then (1, t2)
      else
        let t3 := t2 ++ healthPollTrace env.healthPolls ++ [Ev.callArm]
        if env.armOk = false then (1, t3)
        else
          let rest := mainRest cfg env
          (rest.1, t3 ++ [Ev.setTakeoffAltitude cfg.takeoffAlt,
            Ev.setCurrentSpeed (1/4), Ev.callTakeoff] ++ rest.2)

/-! ## The health-polling loop as an open-ended state machine

For executions in which `health_all_ok` never becomes true, the loop in
`main` never exits; this is modelled as a step function iterated from
the initial state, with the stage that would follow (arming) as the
absorbing success state. -/

/-- Stage of the health-polling loop: still waiting after `n` polls, or
past the loop (about to arm). -/
inductive HealthStage where
  | awaitingHealth (n : Nat)
  | proceedToArm
deriving DecidableEq, Repr

/-- One iteration of `while (!telemetry.health_all_ok())`: poll the
predicate (the `n`-th reading); exit the loop if true, else sleep 1 s
and poll again.  The state carries the accumulated event trace. -/
def healthStep (health : Nat → Bool) :
    HealthStage × List Ev → HealthStage × List Ev
  | (.awaitingHealth n, tr) =>
      if health n then (.proceedToArm, tr ++ [Ev.pollHealth])
      else (.awaitingHealth (n + 1), tr ++ [Ev.pollHealth, Ev.sleepSec 1])
  | (.proceedToArm, tr) => (.proceedToArm, tr)

/-- The health-polling loop after `k` iterations from the start. -/
def healthRun (health : Nat → Bool) (k : Nat) : HealthStage × List Ev :=
  (healthStep health)^[k] (.awaitingHealth 0, [])

/-- `true` exactly on the Result-returning remote calls of `main`
(connect, arm, the two takeoff configuration calls, takeoff, offboard
start/stop, land). -/
def isRemoteCall : Ev → Bool
  | .callConnect => true
  | .callArm => true
  | .setTakeoffAltitude _ => true
  | .setCurrentSpeed _ => true
  | .callTakeoff => true
  | .offboardStart => true
  | .offboardStop => true
  | .callLand => true
  | _ => false

/-- The Result-returning remote calls of a fully successful run of
`main`, in program order. -/
def remoteCallList (cfg : VariantCfg) : List Ev :=
  [Ev.callConnect, Ev.callArm, Ev.setTakeoffAltitude cfg.takeoffAlt,
   Ev.setCurrentSpeed (1/4), Ev.callTakeoff, Ev.offboardStart,
   Ev.offboardStop, Ev.callLand]

/-- How many of the remote calls of `remoteCallList` a run of `main`
performs before its first failure (all 8 on success; the failing call
itself is counted, since it was issued). -/
def passedCalls (env : Env) : Nat :=
  if env.argc ≠ 2 then 0
  else if env.connOk = false then 1
  else if env.peerFound = false then 1
  else if env.armOk = false then 2
  else if env.takeoffOk = false then 5
  else if inAirResolved env.inAirArrival = false then 5
  else if env.startOk = false then 6
  else if env.stopOk = false then 7
  else 8

/-- `true` exactly on `set_takeoff_altitude` calls. -/
def isSetAlt : Ev → Bool
  | .setTakeoffAltitude _ => true
  | _ => false

/-- `true` exactly on `set_current_speed` calls. -/
def isSetSpeed : Ev → Bool
  | .setCurrentSpeed _ => true
  | _ => false

/-- An environment whose in-air notification never arrives; everything
else succeeds. -/
def envTimeout : Env :=
  { argc := 2, connOk := true, peerFound := true, healthPolls := 0,
    armOk := true, takeoffOk := true, inAirArrival := none,
    startOk := true, stopOk := true, landOk := true, landingPolls := 0 }

/-- An environment in which every stage succeeds. -/
def envAllOk : Env :=
  { argc := 2, connOk := true, peerFound := true, healthPolls := 1,
    armOk := true, takeoffOk := true, inAirArrival := some 5,
    startOk := true, stopOk := true, landOk := true, landingPolls := 1 }

/-! ## Helper lemmas -/

lemma stepsTrace_countP_send (steps : List SequenceStep) :
    (stepsTrace steps).countP isSend = steps.length := by
  induction steps with
  | nil => simp [stepsTrace]
  | cons s rest ih => simp [stepsTrace, List.countP_cons, isSend, ih]

lemma stepsTrace_count_start (steps : List SequenceStep) :
    (stepsTrace steps).count Ev.offboardStart = 0 := by
  induction steps with
  | nil => simp [stepsTrace]
  | cons s rest ih => simp [stepsTrace, List.count_cons, ih]

lemma stepsTrace_count_stop (steps : List SequenceStep) :
    (stepsTrace steps).count Ev.offboardStop = 0 := by
  induction steps with
  | nil => simp [stepsTrace]
  | cons s rest ih => simp [stepsTrace, List.count_cons, ih]

lemma stepsTrace_eq_join (steps : List SequenceStep) :
    stepsTrace steps =
      (steps.map (fun s => [Ev.sendVel s.1, Ev.sleepSec s.2])).flatten := by
  induction steps with
  | nil => simp [stepsTrace]
  | cons s rest ih => simp [stepsTrace, ih]

lemma stepsTrace_filter_send (steps : List SequenceStep) :
    (stepsTrace steps).filter isSend = steps.map (fun s => Ev.sendVel s.1) := by
  induction steps with
  | nil => simp [stepsTrace]
  | cons s rest ih => simp [stepsTrace, List.filter_cons, isSend, ih]

lemma stepsTrace_filter_remote (steps : List SequenceStep) :
    (stepsTrace steps).filter isRemoteCall = [] := by
  induction steps with
  | nil => simp [stepsTrace]
  | cons s rest ih => simp [stepsTrace, List.filter_cons, isRemoteCall, ih]

lemma offb_fst (steps : List SequenceStep) (startOk stopOk : Bool) :
    (offb_ctrl_body steps startOk stopOk).1 = (startOk && stopOk) := by
  cases startOk <;> cases stopOk <;> simp [offb_ctrl_body]

lemma offb_filter_remote (steps : List SequenceStep) (startOk stopOk : Bool) :
    (offb_ctrl_body steps startOk stopOk).2.filter isRemoteCall =
      if startOk = false then [Ev.offboardStart]
      else [Ev.offboardStart, Ev.offboardStop] := by
  cases startOk <;> cases stopOk <;>
    simp [offb_ctrl_body, List.filter_append, List.filter_cons,
      isRemoteCall, stepsTrace_filter_remote]

lemma unsub_not_mem_stepsTrace (steps : List SequenceStep) :
    Ev.unsubLandedState ∉ stepsTrace steps := by
  induction steps with
  | nil => simp [stepsTrace]
  | cons s rest ih => simp [stepsTrace, ih]

lemma unsub_not_mem_offb (steps : List SequenceStep) (startOk stopOk : Bool) :
    Ev.unsubLandedState ∉ (offb_ctrl_body steps startOk stopOk).2 := by
  cases startOk <;> cases stopOk <;>
    simp [offb_ctrl_body, unsub_not_mem_stepsTrace]

lemma unsub_not_mem_healthPollTrace (n : Nat) :
    Ev.unsubLandedState ∉ healthPollTrace n := by
  induction n with
  | zero => simp [healthPollTrace]
  | succ n ih => simp [healthPollTrace, ih]

lemma unsub_not_mem_landingPollTrace (n : Nat) :
    Ev.unsubLandedState ∉ landingPollTrace n := by
  induction n with
  | zero => simp [landingPollTrace]
  | succ n ih => simp [landingPollTrace, ih]

lemma healthPollTrace_filter_remote (n : Nat) :
    (healthPollTrace n).filter isRemoteCall = [] := by
  induction n with
  | zero => simp [healthPollTrace, List.filter_cons, isRemoteCall]
  | succ n ih => simp [healthPollTrace, List.filter_cons, isRemoteCall, ih]

lemma landingPollTrace_filter_remote (n : Nat) :
    (landingPollTrace n).filter isRemoteCall = [] := by
  induction n with
  | zero => simp [landingPollTrace, List.filter_cons, isRemoteCall]
  | succ n ih => simp [landingPollTrace, List.filter_cons, isRemoteCall, ih]

lemma getSystemTrace_filter_remote (b : Bool) :
    (getSystemTrace b).filter isRemoteCall = [] := by
  cases b <;> rfl

lemma foldl_deliver_unsubscribed {α : Type} (pred : α → Bool) (s : MonState)
    (hs : s.subscribed = false) (xs : List α) :
    xs.foldl (deliver pred) s = s := by
  induction xs with
  | nil => rfl
  | cons x xs ih =>
      have hd : deliver pred s x = s := by simp [deliver, hs]
      simp [List.foldl_cons, hd, ih]

lemma monitorRun_cases {α : Type} (pred : α → Bool) (xs : List α)
    (tr0 : List MEv) :
    (xs.foldl (deliver pred) ⟨true, tr0⟩ = ⟨true, tr0⟩ ∧
      ∀ x ∈ xs, pred x = false) ∨
    (xs.foldl (deliver pred) ⟨true, tr0⟩ =
        ⟨false, tr0 ++ [MEv.unsubscribe, MEv.resolve]⟩ ∧
      ∃ x ∈ xs, pred x = true) := by
  induction xs generalizing tr0 with
  | nil => exact Or.inl ⟨rfl, by simp⟩
  | cons x xs ih =>
      by_cases h : pred x = true
      · refine Or.inr ⟨?_, ⟨x, by simp, h⟩⟩
        have hd : deliver pred ⟨true, tr0⟩ x =
            ⟨false, tr0 ++ [MEv.unsubscribe, MEv.resolve]⟩ := by
          simp [deliver, h]
        rw [List.foldl_cons, hd, foldl_deliver_unsubscribed pred _ rfl]
      · have h' : pred x = false := by simpa using h
        have hd : deliver pred ⟨true, tr0⟩ x = ⟨true, tr0⟩ := by
          simp [deliver, h']
        rw [List.foldl_cons, hd]
        rcases ih tr0 with ⟨he, hall⟩ | ⟨he, hex⟩
        · exact Or.inl ⟨he, by
            intro y hy
            rcases List.mem_cons.mp hy with rfl | hy
            · exact h'
            · exact hall y hy⟩
        · exact Or.inr ⟨he, by
            rcases hex with ⟨y, hy, hpy⟩
            exact ⟨y, List.mem_cons_of_mem _ hy, hpy⟩⟩

lemma unsub_not_mem_getSystemTrace (b : Bool) :
    Ev.unsubLandedState ∉ getSystemTrace b := by
  cases b <;> decide

lemma countP_setAlt_via_filter (l : List Ev) :
    l.countP isSetAlt = (l.filter isRemoteCall).countP isSetAlt := by
  rw [List.countP_filter]
  apply List.countP_congr
  intro a _
  cases a <;> rfl

lemma countP_setSpeed_via_filter (l : List Ev) :
    l.countP isSetSpeed = (l.filter isRemoteCall).countP isSetSpeed := by
  rw [List.countP_filter]
  apply List.countP_congr
  intro a _
  cases a <;> rfl

lemma takeoff_mem_via_filter (l : List Ev) :
    Ev.callTakeoff ∈ l ↔ Ev.callTakeoff ∈ l.filter isRemoteCall := by
  rw [List.mem_filter]
  exact ⟨fun h => ⟨h, rfl⟩, fun h => h.1⟩

lemma mainRest_filter_remote (cfg : VariantCfg) (env : Env) :
    (mainRest cfg env).2.filter isRemoteCall =
      if env.takeoffOk = false then []
      else if inAirResolved env.inAirArrival = false then []
      else if env.startOk = false then [Ev.offboardStart]
      else if env.stopOk = false then [Ev.offboardStart, Ev.offboardStop]
      else [Ev.offboardStart, Ev.offboardStop, Ev.callLand] := by
  rcases env with ⟨argc, connOk, peerFound, hp, armOk, tkOk, arrival, so, st, lo, lp⟩
  cases tkOk <;> cases hr : inAirResolved arrival <;> cases so <;> cases st <;>
    cases lo <;>
    simp_all [mainRest, offb_fst, offb_filter_remote, List.filter_append,
      List.filter_cons, isRemoteCall, landingPollTrace_filter_remote]

lemma countP_setAlt_getSystemTrace (b : Bool) :
    (getSystemTrace b).countP isSetAlt = 0 := by
  rw [countP_setAlt_via_filter, getSystemTrace_filter_remote]
  rfl

lemma countP_setSpeed_getSystemTrace (b : Bool) :
    (getSystemTrace b).countP isSetSpeed = 0 := by
  rw [countP_setSpeed_via_filter, getSystemTrace_filter_remote]
  rfl

lemma countP_setAlt_healthPollTrace (n : Nat) :
    (healthPollTrace n).countP isSetAlt = 0 := by
  rw [countP_setAlt_via_filter, healthPollTrace_filter_remote]
  rfl

lemma countP_setSpeed_healthPollTrace (n : Nat) :
    (healthPollTrace n).countP isSetSpeed = 0 := by
  rw [countP_setSpeed_via_filter, healthPollTrace_filter_remote]
  rfl

lemma countP_setAlt_mainRest (cfg : VariantCfg) (env : Env) :
    (mainRest cfg env).2.countP isSetAlt = 0 := by
  rw [countP_setAlt_via_filter, mainRest_filter_remote]
  split_ifs <;> rfl

lemma countP_setSpeed_mainRest (cfg : VariantCfg) (env : Env) :
    (mainRest cfg env).2.countP isSetSpeed = 0 := by
  rw [countP_setSpeed_via_filter, mainRest_filter_remote]
  split_ifs <;> rfl

lemma mainRun_exit_filter (cfg : VariantCfg) (env : Env) :
    ((mainRun cfg env).1 = if env.argc = 2 ∧ env.connOk = true ∧
        env.peerFound = true ∧ env.armOk = true ∧ env.takeoffOk = true ∧
        inAirResolved env.inAirArrival = true ∧ env.startOk = true ∧
        env.stopOk = true ∧ env.landOk = true then 0 else 1) ∧
    (mainRun cfg env).2.filter isRemoteCall =
      (remoteCallList cfg).take (passedCalls env) := by
  rcases env with ⟨argc, connOk, peerFound, hp, armOk, tkOk, arrival, so, st, lo, lp⟩
  by_cases hargc : argc = 2
  · cases connOk <;> cases peerFound <;> cases armOk <;> cases tkOk <;>
      cases hr : inAirResolved arrival <;> cases so <;> cases st <;> cases lo <;>
      simp_all [mainRun, mainRest, passedCalls, remoteCallList, offb_fst,
        offb_filter_remote, List.filter_append, List.filter_cons, isRemoteCall,
        healthPollTrace_filter_remote, landingPollTrace_filter_remote,
        getSystemTrace_filter_remote]
  · simp_all [mainRun, passedCalls]

lemma mainRun_unsub_mem (cfg : VariantCfg) (env : Env) :
    Ev.unsubLandedState ∈ (mainRun cfg env).2 ↔
      (env.argc = 2 ∧ env.connOk = true ∧ env.peerFound = true ∧
       env.armOk = true ∧ env.takeoffOk = true ∧
       inAirResolved env.inAirArrival = true) := by
  rcases env with ⟨argc, connOk, peerFound, hp, armOk, tkOk, arrival, so, st, lo, lp⟩
  by_cases hargc : argc = 2
  · cases connOk <;> cases peerFound <;> cases armOk <;> cases tkOk <;>
      cases hr : inAirResolved arrival <;> cases so <;> cases st <;> cases lo <;>
      simp_all [mainRun, mainRest, List.mem_append, offb_fst,
        unsub_not_mem_getSystemTrace, unsub_not_mem_healthPollTrace,
        unsub_not_mem_landingPollTrace, unsub_not_mem_offb]
  · simp_all [mainRun]

/-- When `main` reaches past a successful arm, its trace decomposes as
the pre-arm prefix, then the consecutive block arm / set altitude / set
speed / takeoff, then the continuation. -/
lemma mainRun_reach (cfg : VariantCfg) (env : Env) (h1 : env.argc = 2)
    (h2 : env.connOk = true) (h3 : env.peerFound = true)
    (h4 : env.armOk = true) :
    mainRun cfg env = ((mainRest cfg env).1,
      ([Ev.callConnect] ++ getSystemTrace true ++
        healthPollTrace env.healthPolls) ++
      [Ev.callArm, Ev.setTakeoffAltitude cfg.takeoffAlt,
        Ev.setCurrentSpeed (1/4), Ev.callTakeoff] ++
      (mainRest cfg env).2) := by
  simp [mainRun, h1, h2, h3, h4]

end Offb

namespace Offb

/-! ## Claims about the Setpoint Sequencer -/

/-- C1: for every non-empty step sequence, when both `offboard.start()`
and `offboard.stop()` succeed, `offb_ctrl_body` performs exactly
`len(steps) + 3` velocity-command sends together with exactly one start
call and exactly one stop call. -/
theorem run_sequence_send_count (steps : List SequenceStep)
    (_hne : steps ≠ []) :
    (offb_ctrl_body steps true true).2.countP isSend = steps.length + 3 ∧
    (offb_ctrl_body steps true true).2.count Ev.offboardStart = 1 ∧
    (offb_ctrl_body steps true true).2.count Ev.offboardStop = 1 := by
  refine ⟨?_, ?_, ?_⟩ <;>
    simp [offb_ctrl_body, List.countP_append, List.count_append,
      List.countP_cons, List.count_cons, isSend, stepsTrace_countP_send,
      stepsTrace_count_start, stepsTrace_count_stop]

/-- Witness for C1: at the omnidirectional step list (8 steps), the
successful run performs 11 = 8 + 3 sends, one start and one stop. -/
theorem run_sequence_send_count_witness :
    (offb_ctrl_body omniSteps true true).2.countP isSend =
        omniSteps.length + 3 ∧
    (offb_ctrl_body omniSteps true true).2.count Ev.offboardStart = 1 ∧
    (offb_ctrl_body omniSteps true true).2.count Ev.offboardStop = 1 :=
  run_sequence_send_count omniSteps (by decide)

/-- C2: when `offboard.start()` fails, `offb_ctrl_body` returns `false`
immediately with a trace consisting only of the pre-start neutral send
and the failed start call — zero step commands and no stop call; and in
general a stop call appears in the trace only when start succeeded. -/
theorem run_sequence_start_failed (steps : List SequenceStep)
    (stopOk : Bool) :
    offb_ctrl_body steps false stopOk =
      (false, [Ev.sendVel hover, Ev.offboardStart]) ∧
    (∀ startOk stopOk2 : Bool,
      Ev.offboardStop ∈ (offb_ctrl_body steps startOk stopOk2).2 →
        startOk = true) := by
  constructor
  · simp [offb_ctrl_body]
  · intro startOk stopOk2 h
    cases startOk with
    | true => rfl
    | false => simp [offb_ctrl_body] at h

/-- Witness for C2: at the orthogonal step list with a failing start,
the sequencer aborts with only the courtesy send and the start call;
and on a successful start the stop call's presence is consistent. -/
theorem run_sequence_start_failed_witness :
    offb_ctrl_body orthoSteps false true =
      (false, [Ev.sendVel hover, Ev.offboardStart]) ∧ true = true :=
  ⟨(run_sequence_start_failed orthoSteps true).1,
   (run_sequence_start_failed orthoSteps true).2 true true (by decide)⟩

/-- C3: a run of `offb_ctrl_body` succeeds exactly when both start and
stop succeed, and on the successful run the trace is exactly the
pre-start neutral send, the start, the post-start neutral send with its
2 s hold, then for each step in sequence order its send immediately
followed by a blocking sleep of its dwell, then the final neutral send
with its 2 s hold and the stop; consequently the sends, in order, are
neutral, neutral, the step commands in sequence order, neutral. -/
theorem run_sequence_order (steps : List SequenceStep) :
    (∀ startOk stopOk : Bool,
      (offb_ctrl_body steps startOk stopOk).1 = true →
        startOk = true ∧ stopOk = true) ∧
    (offb_ctrl_body steps true true).1 = true ∧
    (offb_ctrl_body steps true true).2 =
      [Ev.sendVel hover, Ev.offboardStart, Ev.sendVel hover,
        Ev.sleepSec 2] ++
      (steps.map (fun s => [Ev.sendVel s.1, Ev.sleepSec s.2])).flatten ++
      [Ev.sendVel hover, Ev.sleepSec 2, Ev.offboardStop] ∧
    (offb_ctrl_body steps true true).2.filter isSend =
      Ev.sendVel hover :: Ev.sendVel hover ::
        (steps.map (fun s => Ev.sendVel s.1) ++ [Ev.sendVel hover]) := by
  refine ⟨?_, ?_, ?_, ?_⟩
  · intro startOk stopOk h
    cases startOk <;> cases stopOk <;> simp_all [offb_ctrl_body]
  · simp [offb_ctrl_body]
  · simp [offb_ctrl_body, stepsTrace_eq_join]
  · simp [offb_ctrl_body, List.filter_append, List.filter_cons, isSend,
      stepsTrace_filter_send]

/-- Witness for C3: at the omnidirectional step list, a result of
`true` forces both start and stop outcomes to have been successes. -/
theorem run_sequence_order_witness : true = true ∧ true = true :=
  (run_sequence_order omniSteps).1 true true (by decide)

/-! ## Claims about the Readiness-and-Transition Monitor -/

/-- C4: for every predicate and every sequence of notification
deliveries, one monitor invocation performs exactly one subscribe,
produces at most one resolution, its trace is either just the subscribe
(no match) or subscribe, then unsubscribe, then the single resolution
(so the unsubscribe precedes the resolution and no later notification
can resolve a second time), and a resolution occurs only when some
delivered value matches the predicate. -/
theorem monitor_single_resolution {α : Type} (pred : α → Bool)
    (xs : List α) :
    (monitorRun pred xs).trace.count MEv.subscribe = 1 ∧
    (monitorRun pred xs).trace.count MEv.resolve ≤ 1 ∧
    ((monitorRun pred xs).trace = [MEv.subscribe] ∨
      (monitorRun pred xs).trace =
        [MEv.subscribe, MEv.unsubscribe, MEv.resolve]) ∧
    (MEv.resolve ∈ (monitorRun pred xs).trace →
      ∃ x ∈ xs, pred x = true) := by
  rcases monitorRun_cases pred xs [MEv.subscribe] with ⟨he, _⟩ | ⟨he, hex⟩
  · unfold monitorRun
    rw [he]
    refine ⟨by decide, by decide, Or.inl rfl, ?_⟩
    intro hmem
    simp at hmem
  · unfold monitorRun
    rw [he]
    exact ⟨by decide, by decide, Or.inr rfl, fun _ => hex⟩

/-- Witness for C4: a delivery sequence for the takeoff-confirmation
predicate in which the second notification is `InAir`. -/
theorem monitor_single_resolution_witness :
    (monitorRun isInAir
      [LandedState.onGround, LandedState.inAir]).trace.count
        MEv.subscribe = 1 ∧
    ∃ x ∈ [LandedState.onGround, LandedState.inAir], isInAir x = true :=
  ⟨(monitor_single_resolution isInAir
      [LandedState.onGround, LandedState.inAir]).1,
   (monitor_single_resolution isInAir
      [LandedState.onGround, LandedState.inAir]).2.2.2 (by decide)⟩

/-- C6: when no delivered notification matches, the monitor stays
subscribed and its trace is just the subscribe — the subscription is
abandoned and never unsubscribed; an unsubscribe can occur only on the
match path; and in `main`, whenever the in-air wait is not resolved in
time (the timeout path), no `subscribe_landed_state(nullptr)`
unsubscribe ever appears in the trace. -/
theorem monitor_timeout_abandons {α : Type} (pred : α → Bool)
    (xs : List α) (hnone : ∀ x ∈ xs, pred x = false) :
    (monitorRun pred xs).subscribed = true ∧
    (monitorRun pred xs).trace = [MEv.subscribe] ∧
    (∀ ys : List α, MEv.unsubscribe ∈ (monitorRun pred ys).trace →
      ∃ x ∈ ys, pred x = true) ∧
    ∀ (cfg : VariantCfg) (env : Env),
      inAirResolved env.inAirArrival = false →
        Ev.unsubLandedState ∉ (mainRun cfg env).2 := by
  have hres : xs.foldl (deliver pred) ⟨true, [MEv.subscribe]⟩ =
      ⟨true, [MEv.subscribe]⟩ := by
    rcases monitorRun_cases pred xs [MEv.subscribe] with ⟨he, _⟩ | ⟨_, hex⟩
    · exact he
    · rcases hex with ⟨x, hx, hpx⟩
      rw [hnone x hx] at hpx
      cases hpx
  refine ⟨?_, ?_, ?_, ?_⟩
  · unfold monitorRun
    rw [hres]
  · unfold monitorRun
    rw [hres]
  · intro ys hmem
    rcases monitorRun_cases pred ys [MEv.subscribe] with ⟨he, _⟩ | ⟨_, hex⟩
    · unfold monitorRun at hmem
      rw [he] at hmem
      simp at hmem
    · exact hex
  · intro cfg env hr hmem
    have h := (mainRun_unsub_mem cfg env).mp hmem
    rw [hr] at h
    simp at h

/-- Witness for C6: no delivered landed state matches, so the monitor
stays subscribed; and the timed-out `main` run never unsubscribes. -/
theorem monitor_timeout_abandons_witness :
    (monitorRun isInAir
      [LandedState.onGround, LandedState.takingOff]).subscribed = true ∧
    Ev.unsubLandedState ∉ (mainRun omniCfg envTimeout).2 :=
  ⟨(monitor_timeout_abandons isInAir
      [LandedState.onGround, LandedState.takingOff] (by decide)).1,
   (monitor_timeout_abandons isInAir
      [LandedState.onGround, LandedState.takingOff] (by decide)).2.2.2
      omniCfg envTimeout (by decide)⟩

/-! ## Claims about the takeoff-confirmation timeout -/

/-- C5 counterexample: on the never-arrives path the outcome is the
timeout, but it is reached after 13 s of blocking — the sum of the two
configured `wait_for` durations (a discarded 10 s wait and a checked
3 s wait) — which equals neither configured duration alone, and there
are two wait calls, not a single configured timeout. -/
theorem inair_wait_not_single_timeout :
    inAirResolved none = false ∧
    inAirElapsed none = 13 ∧
    inAirWaitDurations = [10, 3] ∧
    inAirElapsed none ∉ inAirWaitDurations ∧
    inAirWaitDurations.length ≠ 1 := by decide

/-- C5 (amended): if the in-air notification arrives strictly before
13 s — the sum of the two successive waits — the outcome is resolved;
if it never arrives the outcome is the timeout after the full 13 s of
both waits, and `main` reports that as a failure with exit code 1. -/
theorem inair_wait_amended (t : Nat) (ht : t < 13) :
    inAirResolved (some t) = true ∧
    inAirResolved none = false ∧
    inAirElapsed none = inAirWaitDurations.sum ∧
    inAirElapsed none = 13 ∧
    ∀ (cfg : VariantCfg) (env : Env), env.inAirArrival = none →
      (mainRun cfg env).1 = 1 := by
  refine ⟨?_, rfl, rfl, rfl, ?_⟩
  · simp [inAirResolved]
    omega
  · intro cfg env hn
    have h := (mainRun_exit_filter cfg env).1
    rw [hn] at h
    simpa [inAirResolved] using h

/-- Witness for C5 (amended): arrival at 5 s resolves; the all-else-ok
run with no arrival exits with code 1. -/
theorem inair_wait_amended_witness :
    inAirResolved (some 5) = true ∧
    (mainRun orthoCfg envTimeout).1 = 1 :=
  ⟨(inair_wait_amended 5 (by decide)).1,
   (inair_wait_amended 5 (by decide)).2.2.2.2 orthoCfg envTimeout rfl⟩

/-! ## Claims about the top-level flight routine -/

/-- C7: `main` exits with code 0 exactly when every stage succeeds
(right argument count, connection, peer discovery, arm, takeoff, in-air
confirmation, offboard start and stop, land), its exit code is always
0 or 1, and its Result-returning remote calls are exactly a prefix of
the canonical call sequence, truncated at the first failing call — so
each remote call is issued at most once (no retry) and no later stage's
call is issued after a failure. -/
theorem main_exit_codes (cfg : VariantCfg) (env : Env) :
    ((mainRun cfg env).1 = 0 ↔
      (env.argc = 2 ∧ env.connOk = true ∧ env.peerFound = true ∧
       env.armOk = true ∧ env.takeoffOk = true ∧
       inAirResolved env.inAirArrival = true ∧ env.startOk = true ∧
       env.stopOk = true ∧ env.landOk = true)) ∧
    ((mainRun cfg env).1 = 0 ∨ (mainRun cfg env).1 = 1) ∧
    (mainRun cfg env).2.filter isRemoteCall =
      (remoteCallList cfg).take (passedCalls env) := by
  obtain ⟨h1, h2⟩ := mainRun_exit_filter cfg env
  refine ⟨?_, ?_, h2⟩ <;> rw [h1] <;> split <;> simp_all

/-- C8: if the health predicate never becomes true, then after any
number of iterations the `while (!telemetry.health_all_ok())` loop is
still in the awaiting-health stage, its trace is just the repeated
poll-then-1 s-sleep pattern, and no arm call has been issued — the
routine never proceeds past awaiting health and never terminates on its
own. -/
theorem health_loop_never_ready (health : Nat → Bool)
    (hnever : ∀ n, health n = false) (k : Nat) :
    healthRun health k =
      (HealthStage.awaitingHealth k,
        (List.replicate k [Ev.pollHealth, Ev.sleepSec 1]).flatten) ∧
    Ev.callArm ∉ (healthRun health k).2 := by
  have hmain : healthRun health k =
      (HealthStage.awaitingHealth k,
        (List.replicate k [Ev.pollHealth, Ev.sleepSec 1]).flatten) := by
    induction k with
    | zero => rfl
    | succ k ih =>
        rw [healthRun, Function.iterate_succ_apply', ← healthRun, ih]
        simp [healthStep, hnever k, List.replicate_succ']
  refine ⟨hmain, ?_⟩
  rw [hmain]
  simp [List.mem_flatten, List.mem_replicate]

/-- Witness for C8: with an always-false health predicate, after 3
iterations the loop is still awaiting health with three poll/sleep
pairs and no arm call. -/
theorem health_loop_never_ready_witness :
    healthRun (fun _ => false) 3 =
      (HealthStage.awaitingHealth 3,
        (List.replicate 3 [Ev.pollHealth, Ev.sleepSec 1]).flatten) ∧
    Ev.callArm ∉ (healthRun (fun _ => false) 3).2 :=
  health_loop_never_ready (fun _ => false) (fun _ => rfl) 3

/-! ## Claims about the two variants' flight scripts -/

/-- C9 counterexample: the orthogonal variant's step sequence is the
single step `fly_forward` (forward 0.5 m/s) — it contains no step with
a negative forward velocity, so there is no backward (return) step and
the script does not fly "out and back". -/
theorem flight_scripts_cex :
    orthoSteps = [(fly_forward, 4)] ∧
    fly_forward.forward_m_s = 1/2 ∧
    orthoSteps.length = 1 ∧
    List.filter (fun s => decide (s.1.forward_m_s < 0)) orthoSteps =
      [] := by
  refine ⟨rfl, rfl, rfl, ?_⟩
  norm_num [orthoSteps, fly_forward, List.filter]

/-- C9 (amended): the omnidirectional variant's script is eight steps:
the first four are equal-speed, equal-dwell horizontal legs with zero
yaw rate whose velocities sum to zero (a closed four-sided square) in
four pairwise distinct directions, and the last four are yaw turns
(yaw rate 22.5 deg/s); the orthogonal variant's script is the single
forward step — it flies straight out only, with no backward return
step. -/
theorem flight_scripts_amended :
    omniSteps.length = 8 ∧
    (omniSteps.take 4).all
      (fun s => decide (s.1.yawspeed_deg_s = 0) && (s.2 == 4)) = true ∧
    ((omniSteps.take 4).map (fun s => s.1.forward_m_s)).sum = 0 ∧
    ((omniSteps.take 4).map (fun s => s.1.right_m_s)).sum = 0 ∧
    ((omniSteps.take 4).map
      (fun s => (s.1.forward_m_s, s.1.right_m_s))).Pairwise (· ≠ ·) ∧
    (omniSteps.take 4).all
      (fun s => decide (s.1.forward_m_s ^ 2 + s.1.right_m_s ^ 2 = 1/2)) =
        true ∧
    (omniSteps.drop 4).all
      (fun s => decide (s.1.yawspeed_deg_s = 45/2)) = true ∧
    orthoSteps = [(fly_forward, 4)] ∧
    fly_forward = { forward_m_s := 1/2 } ∧
    List.filter (fun s => decide (s.1.forward_m_s < 0)) orthoSteps =
      [] := by
  refine ⟨rfl, ?_, ?_, ?_, ?_, ?_, ?_, rfl, rfl, ?_⟩
  · norm_num [omniSteps, fly_forward_right_up, fly_forward_left_down,
      fly_backward_left_up, fly_backward_right_down]
  · norm_num [omniSteps, fly_forward_right_up, fly_forward_left_down,
      fly_backward_left_up, fly_backward_right_down]
  · norm_num [omniSteps, fly_forward_right_up, fly_forward_left_down,
      fly_backward_left_up, fly_backward_right_down]
  · rw [show (omniSteps.take 4).map
        (fun s => (s.1.forward_m_s, s.1.right_m_s)) =
        [((1 : ℚ)/2, (1 : ℚ)/2), (1/2, -(1/2)), (-(1/2), -(1/2)),
          (-(1/2), 1/2)] from rfl]
    refine List.Pairwise.cons ?_ (List.Pairwise.cons ?_
      (List.Pairwise.cons ?_ (List.pairwise_singleton _ _)))
    all_goals
      intro y hy
      fin_cases hy <;> norm_num [Prod.ext_iff]
  · norm_num [omniSteps, fly_forward_right_up, fly_forward_left_down,
      fly_backward_left_up, fly_backward_right_down]
  · norm_num [omniSteps, fly_quarter_cirle_up, fly_quarter_cirle_down]
  · norm_num [orthoSteps, fly_forward, List.filter]

/-- C10: whenever `main` issues the takeoff call, the trace contains
the consecutive block arm, set takeoff altitude (the variant's fixed
value), set ascent speed 0.25, takeoff — so both configuration calls
happen after a successful arm and before the takeoff — and each
configuration call is issued exactly once; on runs that never reach
takeoff, neither configuration call is issued at all.  The fixed
altitude is 1.5 in the omnidirectional variant and 1.0 in the
orthogonal one. -/
theorem main_configures_takeoff (cfg : VariantCfg) (env : Env) :
    (Ev.callTakeoff ∈ (mainRun cfg env).2 →
      (∃ pre post, (mainRun cfg env).2 =
        pre ++ [Ev.callArm, Ev.setTakeoffAltitude cfg.takeoffAlt,
          Ev.setCurrentSpeed (1/4), Ev.callTakeoff] ++ post) ∧
      (mainRun cfg env).2.countP isSetAlt = 1 ∧
      (mainRun cfg env).2.countP isSetSpeed = 1 ∧
      env.armOk = true) ∧
    (Ev.callTakeoff ∉ (mainRun cfg env).2 →
      (mainRun cfg env).2.countP isSetAlt = 0 ∧
      (mainRun cfg env).2.countP isSetSpeed = 0) ∧
    omniCfg.takeoffAlt = 3/2 ∧ orthoCfg.takeoffAlt = 1 := by
  by_cases hreach : env.argc = 2 ∧ env.connOk = true ∧
      env.peerFound = true ∧ env.armOk = true
  · obtain ⟨h1, h2, h3, h4⟩ := hreach
    have hd := mainRun_reach cfg env h1 h2 h3 h4
    have hmem : Ev.callTakeoff ∈ (mainRun cfg env).2 := by
      rw [hd]
      simp
    refine ⟨fun _ => ⟨⟨_, _, by rw [hd]⟩, ?_, ?_, h4⟩,
      fun hnm => absurd hmem hnm, rfl, rfl⟩
    · rw [hd]
      simp [List.countP_append, countP_setAlt_getSystemTrace,
        countP_setAlt_healthPollTrace, countP_setAlt_mainRest,
        List.countP_cons, isSetAlt]
    · rw [hd]
      simp [List.countP_append, countP_setSpeed_getSystemTrace,
        countP_setSpeed_healthPollTrace, countP_setSpeed_mainRest,
        List.countP_cons, isSetSpeed]
  · have hfilter := (mainRun_exit_filter cfg env).2
    have hk : passedCalls env ≤ 2 := by
      unfold passedCalls
      split_ifs with hA hB hC hD <;>
        first
          | omega
          | exact absurd ⟨not_not.mp hA, by simpa using hB,
              by simpa using hC, by simpa using hD⟩ hreach
    have htk : Ev.callTakeoff ∉
        (remoteCallList cfg).take (passedCalls env) ∧
        ((remoteCallList cfg).take (passedCalls env)).countP isSetAlt =
          0 ∧
        ((remoteCallList cfg).take (passedCalls env)).countP isSetSpeed =
          0 := by
      interval_cases h : passedCalls env
      · exact ⟨by simp, rfl, rfl⟩
      · refine ⟨?_, rfl, rfl⟩
        rw [show (remoteCallList cfg).take 1 = [Ev.callConnect] from rfl]
        simp
      · refine ⟨?_, rfl, rfl⟩
        rw [show (remoteCallList cfg).take 2 =
          [Ev.callConnect, Ev.callArm] from rfl]
        simp
    have hnm : Ev.callTakeoff ∉ (mainRun cfg env).2 := by
      rw [takeoff_mem_via_filter, hfilter]
      exact htk.1
    refine ⟨fun hmem => absurd hmem hnm, fun _ => ⟨?_, ?_⟩, rfl, rfl⟩
    · rw [countP_setAlt_via_filter, hfilter]
      exact htk.2.1
    · rw [countP_setSpeed_via_filter, hfilter]
      exact htk.2.2

/-- Witness for C10: the fully successful omnidirectional run issues
each takeoff-configuration call exactly once. -/
theorem main_configures_takeoff_witness :
    (mainRun omniCfg envAllOk).2.countP isSetAlt = 1 ∧
    (mainRun omniCfg envAllOk).2.countP isSetSpeed = 1 :=
  ⟨((main_configures_takeoff omniCfg envAllOk).1 (by decide)).2.1,
   ((main_configures_takeoff omniCfg envAllOk).1 (by decide)).2.2.1⟩

end Offb


